import Mathlib

/-!
Verification development for the auto-deploy service (`auto-deploy.py`).

The definitions below are a shallow embedding of the Python source.  External
effects (subprocess execution, HTTP requests, the Docker SDK, clocks, the
filesystem) are abstracted into an `Env` record of oracles; everything else is
translated statement by statement from the source.  Observable actions
(commands executed via `run_command`, notifications sent via
`send_notification`, entry points of `pull_changes` and the deploy-method
dispatch, deploy-history appends) are collected into explicit event traces.
-/

set_option maxHeartbeats 1000000

namespace AutoDeploy

/-- Result of one `run_command` invocation: `(success, stdout+stderr)`.
`run_command` never raises: timeouts and spawn failures are returned as
`(false, text)` (source lines 419-438). -/
abbrev CmdRes := Bool × String

/-- A command executed through `run_command`: the command string and the
working directory it was run in (`cwd` argument). -/
abbrev Cmd := String × Option String

/-- Python `x or y` on strings: `y` when `x` is falsy (empty), else `x`. -/
def pyOrS (s d : String) : String := if s == "" then d else s

/-- Python truthiness of an optional string (`None` and `""` are falsy). -/
def pyTruthyS : Option String → Bool
  | some s => s != ""
  | none => false

/-- Python `str(v)` of an optional string, rendering `None` literally (used in
the f-string `(health_status or state.get('Status'))`, source line 606). -/
def pyShowOpt : Option String → String
  | some s => s
  | none => "None"

/-- The whitespace characters stripped by Python `str.strip()`. -/
def pySpace (c : Char) : Bool :=
  c == ' ' || c == '\t' || c == '\n' || c == '\r' || c == '\x0b' || c == '\x0c'

/-- Python `str.strip()`: remove leading and trailing whitespace. -/
def pyStrip (s : String) : String :=
  String.mk (((s.toList.dropWhile pySpace).reverse.dropWhile pySpace).reverse)

/-- Split a character list at every occurrence of `c` (Python `split(c)`). -/
def splitCharList (c : Char) : List Char → List (List Char)
  | [] => [[]]
  | a :: t =>
    let r := splitCharList c t
    if a == c then [] :: r
    else
      match r with
      | h :: t2 => (a :: h) :: t2
      | [] => [[a]]

/-- Join character lists with separator `c` (inverse of `splitCharList`). -/
def joinChar (c : Char) : List (List Char) → List Char
  | [] => []
  | [x] => x
  | x :: xs => x ++ c :: joinChar c xs

/-- Does `pat` occur at the start of `l`? (helper for the substring test). -/
def listStarts : List Char → List Char → Bool
  | [], _ => true
  | _ :: _, [] => false
  | a :: pa, b :: hb => a == b && listStarts pa hb

/-- Does `pat` occur anywhere inside `l`? (helper for the substring test). -/
def listHasSub (pat : List Char) : List Char → Bool
  | [] => pat.isEmpty
  | c :: t => listStarts pat (c :: t) || listHasSub pat t

/-- Python `needle in hay` on strings (substring containment). -/
def strHasSub (needle hay : String) : Bool :=
  listHasSub needle.toList hay.toList

/-- Python `str.splitlines()` restricted to newline-separated text: no entry
for the empty string, and no trailing empty entry for a trailing newline. -/
def pySplitlines (s : String) : List String :=
  if s == "" then []
  else
    let parts := (splitCharList '\n' s.toList).map String.mk
    if s.toList.getLast? == some '\n' then parts.dropLast else parts

/-- Python `line.split('|', 2)`: split at the first two `|` only. -/
def pySplitBar2 (s : String) : List String :=
  match splitCharList '|' s.toList with
  | a :: b :: c :: rest => [String.mk a, String.mk b, String.mk (joinChar '|' (c :: rest))]
  | l => l.map String.mk

/-- Python `Path(p).name`: the final path component. -/
def pyBasename (path : String) : String :=
  (((splitCharList '/' path.toList).map String.mk).filter (fun s => s != "")).getLastD ""

/-- A container as seen through the Docker SDK (`containers.list(all=True)`):
`cname` is `c.name`, `image` the rendered image reference, `stateStatus` is
`attrs['State'].get('Status')`, `runStatus` is the `c.status` attribute,
`healthStatus` is `attrs['State'].get('Health', {}).get('Status')` (absent
`Health` block collapses to `none`), `startedAt` is `attrs['State']['StartedAt']`. -/
structure Container where
  cname : String
  image : String
  stateStatus : Option String
  runStatus : String
  healthStatus : Option String
  startedAt : String
  deriving DecidableEq

/-- Environment of external effects.  `run` is the `run_command` oracle,
`httpGet` models `requests.get` (`.error` is a raised exception rendered as
`str(e)`, `.ok` a response status code), `dockerSDK` is
`docker_client.containers.list(all=True)` (`none` when the SDK is unavailable
or listing raised, both of which make the source fall back to the shell path),
`parseStartedAt` abstracts the pure-but-clock-dependent `_parse_started_at`
formatter, `nowIso` is `datetime.utcnow().isoformat()+'Z'`, `nowStamp` is
`datetime.now().strftime('%Y-%m-%d %H:%M:%S')`, `now` the integer Unix time,
`pathExists` models `os.path.exists`. -/
structure Env where
  run : String → Option String → CmdRes
  httpGet : String → Except String Int
  dockerSDK : Option (List Container)
  parseStartedAt : String → String
  nowIso : String
  nowStamp : String
  now : Int
  pathExists : String → Bool

/-- The `health:` mapping of a project's configuration (keys used by the
source: `url`, `expected_status`, `container_name`, `script`). -/
structure HealthCfg where
  url : Option String
  expectedStatus : Option Int
  containerName : Option String
  script : Option String
  deriving DecidableEq

/-- The Python value stored under the `health` key of a project dict.
`absent` covers both a missing key and an empty mapping (both falsy),
`dict` is a non-empty mapping, and the two `NonDict` cases are non-mapping
YAML values (for which `.get` raises `AttributeError`), split by truthiness
because the source tests `if health_cfg:` before calling `.get` on it. -/
inductive HealthVal where
  | absent
  | dict (cfg : HealthCfg)
  | truthyNonDict
  | falsyNonDict
  deriving DecidableEq

/-- The `docker_compose:` mapping of a project (keys `service_name`,
`build_flags`, `up_flags`). -/
structure DCCfg where
  serviceName : Option String
  buildFlags : Option String
  upFlags : Option String
  deriving DecidableEq

/-- The `systemd:` mapping of a project (key `service_name`). -/
structure SystemdCfg where
  serviceName : Option String
  deriving DecidableEq

/-- The `custom:` mapping of a project (key `deploy_script`). -/
structure CustomCfg where
  deployScript : Option String
  deriving DecidableEq

/-- A project entry of the configuration, as read by the source.  `name`,
`path`, `branch` and `deploy_method` are accessed with `[...]` by the code
paths under study and are modelled as present; optional mappings are
`Option`; `enabled` models `project.get('enabled', True)`. -/
structure Project where
  name : String
  path : String
  branch : String
  deployMethod : String
  enabled : Bool
  dockerCompose : Option DCCfg
  systemd : Option SystemdCfg
  custom : Option CustomCfg
  health : HealthVal
  preDeploy : List String
  postDeploy : List String
  deriving DecidableEq

/-- The status dict produced by `check_project_health`:
`{status, last_checked, details, container_name}` (the `container_name` key is
absent in two branches of the source; this is modelled as `none`). -/
structure Health where
  status : String
  lastChecked : String
  details : String
  containerName : Option String
  deriving DecidableEq

/-- The update-info dict returned by `check_git_status` in the behind case:
`{'local': local[:8], 'remote': remote[:8], 'commit_message': ...,
'commit_author': ...}`. -/
structure UpdateInfo where
  localSha : String
  remoteSha : String
  commitMessage : String
  commitAuthor : String
  deriving DecidableEq

/-- The value returned by `check_git_status`: `None` (returned alike for
up-to-date, ahead and diverged), an `{'error': msg}` dict, or the behind
update-info dict. -/
inductive GitStatus where
  | noneRes
  | errorRes (msg : String)
  | update (info : UpdateInfo)
  deriving DecidableEq

/-- Observable actions of one `process_project` run: a `run_command`
invocation, the entry into `pull_changes`, the deploy-method dispatch point
(source lines 820-831), an append to the deploy history, and a
`send_notification` call. -/
inductive Event where
  | cmd (c : String) (cwd : Option String)
  | pullStart
  | dispatch (method : String)
  | deployRecord (pname : String) (ts : Int)
  | notify (msg : String)
  deriving DecidableEq

/-- Render a list of executed commands as trace events. -/
def cmdEvents (l : List Cmd) : List Event :=
  l.map (fun c => Event.cmd c.1 c.2)

/-- `run_commands(commands, cwd, phase)` (source lines 793-805): run each
command in order, stopping at the first failure.  Returns the commands
actually executed and the overall success flag. -/
def runCommands (env : Env) (cmds : List String) (cwd : Option String) : List Cmd × Bool :=
  match cmds with
  | [] => ([], true)
  | c :: rest =>
    let r := env.run c cwd
    if r.1 = false then ([(c, cwd)], false)
    else
      let rec' := runCommands env rest cwd
      ((c, cwd) :: rec'.1, rec'.2)

/-- Candidate container names resolved for a docker-compose project (source
lines 520-527); built as a Python `set`, of which only membership is ever
used. -/
def candidateList (service basename : String) : List String :=
  [service]
    ++ (if basename != "" then
          [basename, basename ++ "_" ++ service ++ "_1", basename ++ "-" ++ service ++ "-1"]
        else [])
    ++ [service ++ "_1", service ++ "-1"]

/-- The candidate loop of `_matches_container` (source lines 532-537). -/
def candMatch (cands : List String) (names image : String) : Bool :=
  cands.any (fun cand =>
    cand != "" && (names == cand || strHasSub cand names || strHasSub cand image))

/-- `_matches_container(names, image)` (source lines 529-537): an explicit
(truthy) configured container name demands exact equality; otherwise any
candidate matches by equality or substring containment in the name or image. -/
def matchesContainer (explicitC : Option String) (cands : List String)
    (names image : String) : Bool :=
  if pyTruthyS explicitC then names == explicitC.getD ""
  else candMatch cands names image

/-- The `docker ps` fallback command (source line 614). -/
def dockerPsCmd : String :=
  "docker ps --format \x27\x7b\x7b.Status\x7d\x7d|\x7b\x7b.Names\x7d\x7d|\x7b\x7b.Image\x7d\x7d\x27"

/-- Shell-based container probe (source lines 613-637): parse the tabular
`docker ps` output line by line, match with `_matches_container`, and treat a
status field containing `Up` as healthy. -/
def shellDockerProbe (env : Env) (explicitC : Option String) (cands : List String)
    (now : String) : List Cmd × Health :=
  let r := env.run dockerPsCmd none
  if r.1 = false then
    ([(dockerPsCmd, none)], ⟨"unhealthy", now, pyStrip r.2, explicitC⟩)
  else
    let found := (pySplitlines r.2).findSome? (fun line =>
      match pySplitBar2 line with
      | [a, b, c] =>
        let st := pyStrip a
        let names := pyStrip b
        let image := pyStrip c
        if matchesContainer explicitC cands names image then some (st, names) else none
      | _ => none)
    match found with
    | some (st, names) =>
      let containerName := some (if pyTruthyS explicitC then explicitC.getD "" else names)
      if strHasSub "Up" st then
        ([(dockerPsCmd, none)], ⟨"healthy", now, st ++ "|" ++ names, containerName⟩)
      else
        ([(dockerPsCmd, none)], ⟨"unhealthy", now, st ++ "|" ++ names, containerName⟩)
    | none =>
      ([(dockerPsCmd, none)], ⟨"unhealthy", now, "No matching container", explicitC⟩)

/-- Container strategy of `check_project_health` (source lines 513-637):
prefer the Docker SDK listing, fall back to the shell probe when the SDK is
unavailable, errored, or found no match. -/
def dockerProbe (env : Env) (p : Project) (explicitC : Option String)
    (now : String) : List Cmd × Health :=
  match p.dockerCompose.bind (fun c => c.serviceName) with
  | none => ([], ⟨"unknown", now, "No docker service_name configured", none⟩)
  | some service =>
    let basename := pyBasename p.path
    let cands := candidateList service basename
    match env.dockerSDK with
    | some containers =>
      match containers.find? (fun c => matchesContainer explicitC cands c.cname c.image) with
      | some c =>
        let healthStatus := c.healthStatus
        let uptime := pyOrS (env.parseStartedAt c.startedAt) (c.stateStatus.getD "")
        let running := c.stateStatus == some "running" || c.runStatus == "running"
        let isHealthy := running && (healthStatus.isNone || healthStatus == some "healthy")
        let statusStr := if isHealthy then "healthy" else "unhealthy"
        let details := uptime ++ " ("
          ++ pyShowOpt (if pyTruthyS healthStatus then healthStatus else c.stateStatus)
          ++ ")|" ++ c.cname
        let containerName := some (if pyTruthyS explicitC then explicitC.getD "" else c.cname)
        ([], ⟨statusStr, now, details, containerName⟩)
      | none => shellDockerProbe env explicitC cands now
    | none => shellDockerProbe env explicitC cands now

/-- Process-supervisor strategy of `check_project_health` (source lines
639-647). -/
def systemdProbe (env : Env) (p : Project) (explicitC : Option String)
    (now : String) : List Cmd × Health :=
  match (match p.systemd with | some c => c.serviceName | none => none) with
  | none => ([], ⟨"unknown", now, "No systemd.service_name configured", none⟩)
  | some sname =>
    let c := "systemctl is-active " ++ sname
    let r := env.run c none
    if r.1 && pyStrip r.2 == "active" then
      ([(c, none)], ⟨"healthy", now, "active", explicitC⟩)
    else
      ([(c, none)], ⟨"unhealthy", now, pyStrip r.2, explicitC⟩)

/-- Text of the `AttributeError` raised by `project.get('health', {}).get(...)`
on a falsy non-mapping `health` value (source line 651); it is caught by the
outer handler and rendered with `str(e)`. -/
def attrErrMsg : String := "\x27str\x27 object has no attribute \x27get\x27"

/-- Custom strategy of `check_project_health` (source lines 649-655).  Note
that line 651 re-reads `project.get('health', {})`, so a falsy non-mapping
`health` value raises here and is converted to unhealthy by the outer
handler (by then `explicit_container` is bound). -/
def customProbe (env : Env) (p : Project) (explicitC : Option String)
    (now : String) : List Cmd × Health :=
  match p.health with
  | HealthVal.dict cfg =>
    match cfg.script with
    | some script =>
      let r := env.run script (some p.path)
      ([(script, some p.path)],
        ⟨if r.1 then "healthy" else "unhealthy", now, pyStrip r.2, explicitC⟩)
    | none => ([], ⟨"unknown", now, "No custom health check configured", explicitC⟩)
  | HealthVal.falsyNonDict => ([], ⟨"unhealthy", now, attrErrMsg, explicitC⟩)
  | HealthVal.absent => ([], ⟨"unknown", now, "No custom health check configured", explicitC⟩)
  | HealthVal.truthyNonDict => ([], ⟨"unhealthy", now, attrErrMsg, explicitC⟩)

/-- Deploy-method dispatch of the probe (source lines 512-657): the three
strategy branches, then the final `unknown` result. -/
def methodProbe (env : Env) (p : Project) (explicitC : Option String)
    (now : String) : List Cmd × Health :=
  if p.deployMethod == "docker-compose" then dockerProbe env p explicitC now
  else if p.deployMethod == "systemd" then systemdProbe env p explicitC now
  else if p.deployMethod == "custom" then customProbe env p explicitC now
  else ([], ⟨"unknown", now, "No health check available", explicitC⟩)

/-- Text of the `UnboundLocalError` raised by the `except` handler itself when
the exception occurred before `explicit_container` was assigned (source lines
499 and 658-659). -/
def unboundLocalMsg : String :=
  "UnboundLocalError: local variable \x27explicit_container\x27 referenced before assignment"

/-- `check_project_health(project)` (source lines 490-659).  A `.error` result
is an exception escaping the function: this happens exactly when the `health`
value is a truthy non-mapping, because `health_cfg.get('container_name')`
(line 499) raises `AttributeError` before `explicit_container` is bound, and
the handler's reference to `explicit_container` (line 659) then raises
`UnboundLocalError`.  Every other modelled exception (an HTTP exception, the
`AttributeError` of line 651) is converted to an unhealthy status carrying the
exception text. -/
def checkProjectHealth (env : Env) (p : Project) : List Cmd × Except String Health :=
  let now := env.nowIso
  match p.health with
  | HealthVal.truthyNonDict => ([], Except.error unboundLocalMsg)
  | HealthVal.dict cfg =>
    let explicitC := cfg.containerName
    match cfg.url with
    | some url =>
      let expected := cfg.expectedStatus.getD 200
      match env.httpGet url with
      | Except.ok code =>
        if code == expected then
          ([], Except.ok ⟨"healthy", now, "HTTP " ++ toString code, explicitC⟩)
        else
          ([], Except.ok ⟨"unhealthy", now, "HTTP " ++ toString code, explicitC⟩)
      | Except.error e => ([], Except.ok ⟨"unhealthy", now, e, explicitC⟩)
    | none =>
      let r := methodProbe env p explicitC now
      (r.1, Except.ok r.2)
  | _ =>
    let r := methodProbe env p none now
    (r.1, Except.ok r.2)

/-- `check_git_status(project)` (source lines 661-714).  Returns the commands
run, the notifications sent, and the returned value.  `None` is returned alike
for up-to-date, ahead and diverged; only the diverged branch notifies. -/
def checkGitStatus (env : Env) (p : Project) : List Cmd × List String × GitStatus :=
  let fetchCmd := "git fetch origin " ++ p.branch
  let r1 := env.run fetchCmd (some p.path)
  if r1.1 = false then
    ([(fetchCmd, some p.path)], [], GitStatus.errorRes (pyOrS (pyStrip r1.2) "Failed to fetch from remote"))
  else
    let localCmd := "git rev-parse @"
    let r2 := env.run localCmd (some p.path)
    if r2.1 = false then
      ([(fetchCmd, some p.path), (localCmd, some p.path)], [],
        GitStatus.errorRes (pyOrS (pyStrip r2.2) "Failed to get local commit"))
    else
      let remoteCmd := "git rev-parse @\x7bu\x7d"
      let r3 := env.run remoteCmd (some p.path)
      if r3.1 = false then
        ([(fetchCmd, some p.path), (localCmd, some p.path), (remoteCmd, some p.path)], [],
          GitStatus.errorRes (pyOrS (pyStrip r3.2) "Failed to get remote commit"))
      else
        let baseCmd := "git merge-base @ @\x7bu\x7d"
        let r4 := env.run baseCmd (some p.path)
        let cs := [(fetchCmd, some p.path), (localCmd, some p.path),
                   (remoteCmd, some p.path), (baseCmd, some p.path)]
        if r4.1 = false then
          (cs, [], GitStatus.errorRes (pyOrS (pyStrip r4.2) "Failed to get merge base"))
        else
          let lo := pyStrip r2.2
          let ro := pyStrip r3.2
          let bo := pyStrip r4.2
          if lo == ro then (cs, [], GitStatus.noneRes)
          else if lo == bo then
            let msgCmd := "git log -1 --pretty=%B FETCH_HEAD"
            let rm := env.run msgCmd (some p.path)
            let autCmd := "git log -1 --pretty=%an FETCH_HEAD"
            let ra := env.run autCmd (some p.path)
            (cs ++ [(msgCmd, some p.path), (autCmd, some p.path)], [],
              GitStatus.update ⟨lo.take 8, ro.take 8,
                if rm.1 then pyStrip rm.2 else "Unknown",
                if ra.1 then pyStrip ra.2 else "Unknown"⟩)
          else if ro == bo then (cs, [], GitStatus.noneRes)
          else
            (cs, ["âš ï¸ " ++ p.name ++ ": Branches have diverged - manual intervention needed"],
              GitStatus.noneRes)

/-- `pull_changes(project)` (source lines 716-735): a quiet diff check, a
timestamped stash when the working tree is dirty (the stash result is
ignored), then the pull, whose success is the returned flag. -/
def pullChanges (env : Env) (p : Project) : List Cmd × Bool :=
  let diffCmd := "git diff-index --quiet HEAD --"
  let r1 := env.run diffCmd (some p.path)
  let stashCmd := "git stash save \x27Auto-stash before update " ++ env.nowStamp ++ "\x27"
  let stashEv : List Cmd := if r1.1 = false then [(stashCmd, some p.path)] else []
  let pullCmd := "git pull origin " ++ p.branch
  let r2 := env.run pullCmd (some p.path)
  ([(diffCmd, some p.path)] ++ stashEv ++ [(pullCmd, some p.path)], r2.1)

/-- `deploy_docker_compose(project)` (source lines 737-763).  The `down`
failure is tolerated; success is the `up` result.  Missing `docker_compose`
or `service_name` raise `KeyError` (lines 740-741). -/
def deployDockerCompose (env : Env) (p : Project) : List Cmd × Except String Bool :=
  match p.dockerCompose with
  | none => ([], Except.error "KeyError: \x27docker_compose\x27")
  | some cfg =>
    match cfg.serviceName with
    | none => ([], Except.error "KeyError: \x27service_name\x27")
    | some service =>
      let buildFlags := cfg.buildFlags.getD ""
      let upFlags := cfg.upFlags.getD ""
      let downCmd := "docker compose down --remove-orphans"
      let _ := env.run downCmd (some p.path)
      let upCmd := "docker compose up " ++ service ++ " " ++ upFlags ++ " " ++ buildFlags
      let r := env.run upCmd (some p.path)
      ([(downCmd, some p.path), (upCmd, some p.path)], Except.ok r.1)

/-- `deploy_systemd(project)` (source lines 765-777). -/
def deploySystemd (env : Env) (p : Project) : List Cmd × Except String Bool :=
  match p.systemd with
  | none => ([], Except.error "KeyError: \x27systemd\x27")
  | some cfg =>
    match cfg.serviceName with
    | none => ([], Except.error "KeyError: \x27service_name\x27")
    | some sname =>
      let c := "systemctl restart " ++ sname
      let r := env.run c none
      ([(c, none)], Except.ok r.1)

/-- `deploy_custom(project)` (source lines 779-791). -/
def deployCustom (env : Env) (p : Project) : List Cmd × Except String Bool :=
  match p.custom with
  | none => ([], Except.error "KeyError: \x27custom\x27")
  | some cfg =>
    match cfg.deployScript with
    | none => ([], Except.error "KeyError: \x27deploy_script\x27")
    | some script =>
      let r := env.run script (some p.path)
      ([(script, some p.path)], Except.ok r.1)

/-- The method dispatch of `deploy_project` (source lines 820-831): the
unrecognized-method branch logs and returns failure without running
anything. -/
def dispatchMethod (env : Env) (p : Project) : List Cmd × Except String Bool :=
  if p.deployMethod == "docker-compose" then deployDockerCompose env p
  else if p.deployMethod == "systemd" then deploySystemd env p
  else if p.deployMethod == "custom" then deployCustom env p
  else ([], Except.ok false)

/-- `deploy_project(project, update_info)` (source lines 807-852): pre-deploy
commands (any failure aborts before dispatch), the method dispatch, post-deploy
commands (whose failure is only logged), then the deploy-history append.  The
`update_info` argument is only used for logging and does not influence the
result. -/
def deployProject (env : Env) (p : Project) : List Event × Except String Bool :=
  let pre := runCommands env p.preDeploy (some p.path)
  if pre.2 = false then (cmdEvents pre.1, Except.ok false)
  else
    let d := dispatchMethod env p
    let ev := cmdEvents pre.1 ++ [Event.dispatch p.deployMethod] ++ cmdEvents d.1
    match d.2 with
    | Except.error e => (ev, Except.error e)
    | Except.ok false => (ev, Except.ok false)
    | Except.ok true =>
      let post := runCommands env p.postDeploy (some p.path)
      (ev ++ cmdEvents post.1 ++ [Event.deployRecord p.name env.now], Except.ok true)

/-- `process_project(project)` (source lines 854-920): skip disabled projects
and missing paths; run the git check; on `None` run the docker-compose
health-recovery branch; on an error dict notify and stop; on update info pull
(notifying on failure) and deploy (notifying either way).  A `.error` result
is an exception escaping `process_project` (caught by the caller `run_once`). -/
def processProject (env : Env) (p : Project) : List Event × Except String Unit :=
  if p.enabled = false then ([], Except.ok ())
  else if env.pathExists p.path = false then ([], Except.ok ())
  else
    let g := checkGitStatus env p
    let ev1 := cmdEvents g.1 ++ g.2.1.map Event.notify
    match g.2.2 with
    | GitStatus.noneRes =>
      if p.deployMethod == "docker-compose" then
        let h := checkProjectHealth env p
        match h.2 with
        | Except.error e => (ev1 ++ cmdEvents h.1, Except.error e)
        | Except.ok st =>
          if st.status != "healthy" then
            let d := deployProject env p
            match d.2 with
            | Except.error e => (ev1 ++ cmdEvents h.1 ++ d.1, Except.error e)
            | Except.ok true =>
              (ev1 ++ cmdEvents h.1 ++ d.1
                ++ [Event.notify ("âœ… " ++ p.name
                      ++ ": Container recovered and redeployed (status=" ++ st.status ++ ")")],
                Except.ok ())
            | Except.ok false =>
              (ev1 ++ cmdEvents h.1 ++ d.1
                ++ [Event.notify ("âŒ " ++ p.name
                      ++ ": Recovery redeploy failed after health check (status=" ++ st.status ++ ")")],
                Except.ok ())
          else (ev1 ++ cmdEvents h.1, Except.ok ())
      else (ev1, Except.ok ())
    | GitStatus.errorRes msg =>
      (ev1 ++ [Event.notify ("âŒ " ++ p.name ++ ": Git check failed: " ++ msg)], Except.ok ())
    | GitStatus.update info =>
      let pc := pullChanges env p
      let ev2 := ev1 ++ [Event.pullStart] ++ cmdEvents pc.1
      if pc.2 = false then
        (ev2 ++ [Event.notify ("âŒ " ++ p.name ++ ": Failed to pull updates")], Except.ok ())
      else
        let d := deployProject env p
        match d.2 with
        | Except.error e => (ev2 ++ d.1, Except.error e)
        | Except.ok true =>
          (ev2 ++ d.1
            ++ [Event.notify ("âœ… " ++ p.name ++ ": Successfully updated and deployed\nðŸ“ "
                  ++ info.commitMessage ++ "\nðŸ‘¤ " ++ info.commitAuthor)],
            Except.ok ())
        | Except.ok false =>
          (ev2 ++ d.1 ++ [Event.notify ("âŒ " ++ p.name ++ ": Deployment failed after update")],
            Except.ok ())

/-- Health-history append plus retention prune (source lines 474-480): append
`(ts, flag)` then pop from the head while the head is older than
`ts - retention`. -/
def recordHealthAppendPrune (hlist : List (Int × Nat)) (ts : Int) (flag : Nat)
    (retention : Int) : List (Int × Nat) :=
  (hlist ++ [(ts, flag)]).dropWhile (fun e => e.1 < ts - retention)

/-- Deploy-history append plus retention prune (source lines 842-848). -/
def recordDeployAppendPrune (dlist : List Int) (ts : Int) (retention : Int) : List Int :=
  (dlist ++ [ts]).dropWhile (fun t => t < ts - retention)

/-- One project step of the health scheduler (source lines 467-480): probe,
derive `is_unhealthy = (status.get('status') != 'healthy')`, and append the
`(ts, 1|0)` entry with retention pruning.  An exception escaping the probe
escapes the step (it is caught by the scheduler loop, aborting the remaining
projects of that iteration). -/
def schedulerRecord (env : Env) (p : Project) (hlist : List (Int × Nat))
    (retention : Int) : Except String (List (Int × Nat)) :=
  match (checkProjectHealth env p).2 with
  | Except.error e => Except.error e
  | Except.ok st =>
    let flag : Nat := if st.status != "healthy" then 1 else 0
    Except.ok (recordHealthAppendPrune hlist env.now flag retention)

/-- Window parameters of `api_downtime`/`api_deployments` (source lines
317-332): `(total_seconds, bucket_size)`, defaulting to the 7-day window. -/
def downtimeParams (rangeKey : String) : Int × Int :=
  if rangeKey == "7d" then (7 * 24 * 3600, 3600)
  else if rangeKey == "3d" then (3 * 24 * 3600, 3600)
  else if rangeKey == "24h" then (24 * 3600, 300)
  else if rangeKey == "1h" then (3600, 60)
  else (7 * 24 * 3600, 3600)

/-- `lst[idx] += 1` on a Python list of counters. -/
def incAt (l : List Nat) (i : Nat) : List Nat :=
  l.set i (l.getD i 0 + 1)

/-- One entry of the counting loop of `api_downtime` (source lines 349-359):
skip entries before the window start or at/after `now`, compute the bucket
index by floor division, bounds-check it, then increment the total counter
and, for a truthy `is_unhealthy`, the unhealthy counter. -/
def bucketStep (start now bSize : Int) (nb : Nat)
    (acc : List Nat × List Nat) (e : Int × Nat) : List Nat × List Nat :=
  if e.1 < start then acc
  else if now ≤ e.1 then acc
  else
    let idx := (e.1 - start).fdiv bSize
    if idx < 0 then acc
    else if (nb : Int) ≤ idx then acc
    else (incAt acc.1 idx.toNat, if e.2 != 0 then incAt acc.2 idx.toNat else acc.2)

/-- The `counts`/`unhealthy` arrays of `api_downtime` for one project (source
lines 346-359), starting from `[0] * num_buckets`. -/
def bucketAccum (start now bSize : Int) (nb : Nat)
    (entries : List (Int × Nat)) : List Nat × List Nat :=
  entries.foldl (bucketStep start now bSize nb) (List.replicate nb 0, List.replicate nb 0)

/-- Round-half-to-even to an integer, as Python's `round` ties-to-even. -/
def roundHalfEven (q : ℚ) : ℤ :=
  let f := Int.floor q
  let r := q - f
  if r < 1/2 then f
  else if 1/2 < r then f + 1
  else if f % 2 = 0 then f else f + 1

/-- Python `round(x, 2)` over the rationals. -/
def round2 (q : ℚ) : ℚ := (roundHalfEven (q * 100) : ℚ) / 100

/-- The percentage loop of `api_downtime` (source lines 362-367): `0` for an
empty bucket, otherwise `round(u / c * 100, 2)`. -/
def pctList (counts unhealthy : List Nat) : List ℚ :=
  (counts.zip unhealthy).map (fun cu =>
    if cu.1 = 0 then 0 else round2 ((cu.2 : ℚ) / (cu.1 : ℚ) * 100))

/-- The bucket labels of `api_downtime` (source lines 337-340), modelled as
the bucket start timestamps (the ISO-8601 rendering of each timestamp is
presentation only). -/
def apiDowntimeLabels (now : Int) (rangeKey : String) : List Int :=
  let tp := downtimeParams rangeKey
  let nb := (tp.1 / tp.2).toNat
  (List.range nb).map (fun i => (now - tp.1) + (i : Int) * tp.2)

/-- The percentage series of `api_downtime` for one project's history entries
(source lines 345-369). -/
def apiDowntimeSeries (now : Int) (rangeKey : String)
    (entries : List (Int × Nat)) : List ℚ :=
  let tp := downtimeParams rangeKey
  let nb := (tp.1 / tp.2).toNat
  let start := now - tp.1
  let acc := bucketAccum start now tp.2 nb entries
  pctList acc.1 acc.2

/-- The full `api_downtime` response (source lines 311-371): labels plus one
series per project currently present in the status map; a project's history
defaults to `[]`. -/
def apiDowntime (now : Int) (rangeKey : String) (statusNames : List String)
    (history : String → List (Int × Nat)) : List Int × List (String × List ℚ) :=
  (apiDowntimeLabels now rangeKey,
   statusNames.map (fun n => (n, apiDowntimeSeries now rangeKey (history n))))

/-- Is any event of the trace the method-dispatch point of `deploy_project`? -/
def hasDispatch (tr : List Event) : Bool :=
  tr.any (fun e => match e with | Event.dispatch _ => true | _ => false)

/-- Is any event of the trace a deploy-history append? -/
def hasDeployRec (tr : List Event) : Bool :=
  tr.any (fun e => match e with | Event.deployRecord _ _ => true | _ => false)

/-- Is any event of the trace an entry into `pull_changes`? -/
def hasPullStart (tr : List Event) : Bool :=
  tr.any (fun e => match e with | Event.pullStart => true | _ => false)

/-- Number of `send_notification` calls in the trace. -/
def notifyCount (tr : List Event) : Nat :=
  tr.countP (fun e => match e with | Event.notify _ => true | _ => false)

/-- The probe outcome that triggers the health-recovery branch of
`process_project`: the probe returned normally with a non-`healthy` status. -/
def probeNotHealthy (env : Env) (p : Project) : Bool :=
  match (checkProjectHealth env p).2 with
  | Except.ok st => st.status != "healthy"
  | Except.error _ => false

/-- Read a counter array (Python `lst[i]`, with 0 out of range). -/
def get0 (l : List Nat) (i : Nat) : Nat := l.getD i 0

/-- Does entry `e` land in bucket `i` of the counting loop of `api_downtime`:
it passes the two window guards and the bounds check, and its floor-division
bucket index is `i`. -/
def bucketHit (start now bSize : Int) (nb : Nat) (i : Nat) (e : Int × Nat) : Bool :=
  !(decide (e.1 < start)) && !(decide (now ≤ e.1)) &&
    (let idx := (e.1 - start).fdiv bSize
     !(decide (idx < 0)) && !(decide ((nb : Int) ≤ idx)) && (idx.toNat == i))

/-- A docker-compose project used for concrete evaluations: service `web`,
no health configuration, no hooks. -/
def projDC : Project :=
  { name := "proj", path := "/srv/app", branch := "main",
    deployMethod := "docker-compose", enabled := true,
    dockerCompose := some ⟨some "web", none, none⟩, systemd := none, custom := none,
    health := HealthVal.absent, preDeploy := [], postDeploy := [] }

/-- An environment in which every command succeeds with output `aaa`; the
Docker SDK is unavailable, so the container probe uses the shell fallback,
whose output `aaa` matches no container.  All three git hashes trim to `aaa`,
so the repository is up to date. -/
def envUp : Env :=
  { run := fun _ _ => (true, "aaa"),
    httpGet := fun _ => Except.ok 200,
    dockerSDK := none,
    parseStartedAt := fun _ => "",
    nowIso := "2026-01-01T00:00:00Z",
    nowStamp := "2026-01-01 00:00:00",
    now := 1000,
    pathExists := fun _ => true }

/-- Like `envUp` but with local commit `aaa`, remote commit `bbb` and
merge-base `ccc`: a diverged repository. -/
def envDiv : Env :=
  { envUp with
    run := fun c _ =>
      if c = "git rev-parse @\x7bu\x7d" then (true, "bbb")
      else if c = "git merge-base @ @\x7bu\x7d" then (true, "ccc")
      else (true, "aaa") }

/-- Like `envUp` but with local commit `aaa`, remote commit `bbb` and
merge-base `aaa` (a repository behind its remote), and a dirty working tree
(the quiet diff check fails). -/
def envBehind : Env :=
  { envUp with
    run := fun c _ =>
      if c = "git rev-parse @\x7bu\x7d" then (true, "bbb")
      else if c = "git diff-index --quiet HEAD --" then (false, "dirty")
      else (true, "aaa") }

/-- Like `envBehind` but with 12-character commit hashes and a real commit
message/author, exercising the 8-character truncation and the trailing-newline
strip of `git log` output. -/
def envBehindLong : Env :=
  { envUp with
    run := fun c _ =>
      if c = "git rev-parse @\x7bu\x7d" then (true, "bbbbbbbbbbb2")
      else if c = "git rev-parse @" then (true, "aaaaaaaaaaa1")
      else if c = "git merge-base @ @\x7bu\x7d" then (true, "aaaaaaaaaaa1")
      else if c = "git log -1 --pretty=%B FETCH_HEAD" then (true, "fix bug\n")
      else if c = "git log -1 --pretty=%an FETCH_HEAD" then (true, "alice\n")
      else (true, "") }

/-- A project whose `health` key holds a truthy non-mapping value (for
example the YAML scalar `health: enabled`). -/
def projBadHealth : Project := { projDC with health := HealthVal.truthyNonDict }

/-- A project with a failing pre-deploy command under `envPreFail`. -/
def projPre : Project := { projDC with preDeploy := ["failcmd"] }

/-- An environment in which exactly the command `failcmd` fails. -/
def envPreFail : Env :=
  { envUp with run := fun c _ => if c = "failcmd" then (false, "boom") else (true, "") }

/-- A custom-method project with a failing post-deploy command under
`envPostFail`. -/
def projPost : Project :=
  { projDC with
    deployMethod := "custom", custom := some ⟨some "deploy.sh"⟩,
    postDeploy := ["badpost"] }

/-- An environment in which exactly the command `badpost` fails. -/
def envPostFail : Env :=
  { envUp with run := fun c _ => if c = "badpost" then (false, "no") else (true, "") }

/-- A project with no applicable health strategy (unrecognized method), whose
probe yields the `unknown` status. -/
def projNoStrategy : Project := { projDC with deployMethod := "other" }

/-- The four commands `check_git_status` runs up to the classification. -/
def gitCmds (p : Project) : List Cmd :=
  [("git fetch origin " ++ p.branch, some p.path), ("git rev-parse @", some p.path),
   ("git rev-parse @\x7bu\x7d", some p.path), ("git merge-base @ @\x7bu\x7d", some p.path)]

theorem hasDispatch_append (a b : List Event) :
    hasDispatch (a ++ b) = (hasDispatch a || hasDispatch b) :=
  List.any_append

theorem hasPullStart_append (a b : List Event) :
    hasPullStart (a ++ b) = (hasPullStart a || hasPullStart b) :=
  List.any_append

theorem hasDispatch_cmdEvents (l : List Cmd) : hasDispatch (cmdEvents l) = false := by
  induction l with
  | nil => rfl
  | cons c t ih => simp [hasDispatch, cmdEvents] at ih ⊢; exact ih

theorem hasPullStart_cmdEvents (l : List Cmd) : hasPullStart (cmdEvents l) = false := by
  induction l with
  | nil => rfl
  | cons c t ih => simp [hasPullStart, cmdEvents] at ih ⊢; exact ih

theorem hasDispatch_notifyMap (l : List String) :
    hasDispatch (l.map Event.notify) = false := by
  induction l with
  | nil => rfl
  | cons c t ih => simp [hasDispatch]

theorem hasPullStart_notifyMap (l : List String) :
    hasPullStart (l.map Event.notify) = false := by
  induction l with
  | nil => rfl
  | cons c t ih => simp [hasPullStart]

theorem runCommands_mem (env : Env) (cwd : Option String) :
    ∀ (cmds : List String), ∀ e ∈ (runCommands env cmds cwd).1, e.1 ∈ cmds ∧ e.2 = cwd := by
  intro cmds
  induction cmds with
  | nil => intro e he; simp [runCommands] at he
  | cons c rest ih =>
    intro e he
    simp only [runCommands] at he
    by_cases h : (env.run c cwd).1 = false
    · rw [if_pos h] at he
      simp only [List.mem_singleton] at he
      simp [he]
    · rw [if_neg h] at he
      simp only [List.mem_cons] at he
      rcases he with he | he
      · simp [he]
      · rcases ih e he with ⟨h1, h2⟩
        exact ⟨List.mem_cons_of_mem _ h1, h2⟩

theorem hasPullStart_dispatch_singleton (m : String) :
    hasPullStart [Event.dispatch m] = false := rfl

theorem hasPullStart_cons_dispatch (m : String) (rest : List Event) :
    hasPullStart (Event.dispatch m :: rest) = hasPullStart rest := by
  simp [hasPullStart]

theorem hasPullStart_record_singleton (n : String) (ts : Int) :
    hasPullStart [Event.deployRecord n ts] = false := rfl

theorem deployProject_no_pullStart (env : Env) (p : Project) :
    hasPullStart (deployProject env p).1 = false := by
  by_cases hp : (runCommands env p.preDeploy (some p.path)).2 = false
  · simp [deployProject, hp, hasPullStart_cmdEvents]
  · rcases hd : (dispatchMethod env p).2 with e | b
    · simp [deployProject, hp, hd, hasPullStart_append, hasPullStart_cmdEvents,
        hasPullStart_dispatch_singleton, hasPullStart_record_singleton,
        hasPullStart_cons_dispatch]
    · cases b <;>
        simp [deployProject, hp, hd, hasPullStart_append, hasPullStart_cmdEvents,
          hasPullStart_dispatch_singleton, hasPullStart_record_singleton,
          hasPullStart_cons_dispatch]

theorem checkGitStatus_upToDate (env : Env) (p : Project) (fo lo ro bo : String)
    (h1 : env.run ("git fetch origin " ++ p.branch) (some p.path) = (true, fo))
    (h2 : env.run "git rev-parse @" (some p.path) = (true, lo))
    (h3 : env.run "git rev-parse @\x7bu\x7d" (some p.path) = (true, ro))
    (h4 : env.run "git merge-base @ @\x7bu\x7d" (some p.path) = (true, bo))
    (heq : pyStrip lo = pyStrip ro) :
    checkGitStatus env p = (gitCmds p, [], GitStatus.noneRes) := by
  simp [checkGitStatus, h1, h2, h3, h4, heq, gitCmds]

theorem checkGitStatus_diverged (env : Env) (p : Project) (fo lo ro bo : String)
    (h1 : env.run ("git fetch origin " ++ p.branch) (some p.path) = (true, fo))
    (h2 : env.run "git rev-parse @" (some p.path) = (true, lo))
    (h3 : env.run "git rev-parse @\x7bu\x7d" (some p.path) = (true, ro))
    (h4 : env.run "git merge-base @ @\x7bu\x7d" (some p.path) = (true, bo))
    (hlr : pyStrip lo ≠ pyStrip ro) (hlb : pyStrip lo ≠ pyStrip bo) (hrb : pyStrip ro ≠ pyStrip bo) :
    checkGitStatus env p =
      (gitCmds p,
       ["âš ï¸ " ++ p.name ++ ": Branches have diverged - manual intervention needed"],
       GitStatus.noneRes) := by
  simp [checkGitStatus, h1, h2, h3, h4, hlr, hlb, hrb, gitCmds]

theorem checkGitStatus_behind (env : Env) (p : Project) (fo lo ro bo m a : String)
    (h1 : env.run ("git fetch origin " ++ p.branch) (some p.path) = (true, fo))
    (h2 : env.run "git rev-parse @" (some p.path) = (true, lo))
    (h3 : env.run "git rev-parse @\x7bu\x7d" (some p.path) = (true, ro))
    (h4 : env.run "git merge-base @ @\x7bu\x7d" (some p.path) = (true, bo))
    (h5 : env.run "git log -1 --pretty=%B FETCH_HEAD" (some p.path) = (true, m))
    (h6 : env.run "git log -1 --pretty=%an FETCH_HEAD" (some p.path) = (true, a))
    (hlr : pyStrip lo ≠ pyStrip ro) (hlb : pyStrip lo = pyStrip bo) :
    checkGitStatus env p =
      (gitCmds p ++ [("git log -1 --pretty=%B FETCH_HEAD", some p.path),
                     ("git log -1 --pretty=%an FETCH_HEAD", some p.path)],
       [],
       GitStatus.update ⟨(pyStrip lo).take 8, (pyStrip ro).take 8, pyStrip m, pyStrip a⟩) := by
  simp [checkGitStatus, h1, h2, h3, h4, h5, h6, hlr, hlb, gitCmds]
  exact fun h => hlr (hlb.trans h)

theorem hasPullStart_notify_singleton (s : String) :
    hasPullStart [Event.notify s] = false := rfl

theorem hasDispatch_notify_singleton (s : String) :
    hasDispatch [Event.notify s] = false := rfl

theorem hasDispatch_pullStart_singleton : hasDispatch [Event.pullStart] = false := rfl

theorem hasDispatch_nil : hasDispatch [] = false := rfl

theorem hasDispatch_cons_pullStart (rest : List Event) :
    hasDispatch (Event.pullStart :: rest) = hasDispatch rest := by
  simp [hasDispatch]

theorem hasDispatch_cons_notify (s : String) (rest : List Event) :
    hasDispatch (Event.notify s :: rest) = hasDispatch rest := by
  simp [hasDispatch]

theorem hasDeployRec_cmdEvents (l : List Cmd) : hasDeployRec (cmdEvents l) = false := by
  induction l with
  | nil => rfl
  | cons c t ih => simp [hasDeployRec, cmdEvents] at ih ⊢; exact ih

theorem processProject_noneRes (env : Env) (p : Project) (cs : List Cmd) (notifs : List String)
    (henabled : p.enabled = true) (hpath : env.pathExists p.path = true)
    (hgit : checkGitStatus env p = (cs, notifs, GitStatus.noneRes)) :
    hasPullStart (processProject env p).1 = false ∧
    (hasDispatch (processProject env p).1 = true →
      p.deployMethod = "docker-compose" ∧ probeNotHealthy env p = true) := by
  cases hdm : p.deployMethod == "docker-compose" with
  | false =>
    constructor
    · simp [processProject, henabled, hpath, hgit, hdm,
        hasPullStart_append, hasPullStart_cmdEvents, hasPullStart_notifyMap]
    · intro habs
      simp [processProject, henabled, hpath, hgit, hdm,
        hasDispatch_append, hasDispatch_cmdEvents, hasDispatch_notifyMap] at habs
  | true =>
    rcases hh : checkProjectHealth env p with ⟨hcs, hres⟩
    cases hres with
    | error e =>
      constructor
      · simp [processProject, henabled, hpath, hgit, hdm, hh,
          hasPullStart_append, hasPullStart_cmdEvents, hasPullStart_notifyMap]
      · intro habs
        simp [processProject, henabled, hpath, hgit, hdm, hh,
          hasDispatch_append, hasDispatch_cmdEvents, hasDispatch_notifyMap] at habs
    | ok st =>
      cases hst : st.status != "healthy" with
      | false =>
        constructor
        · simp [processProject, henabled, hpath, hgit, hdm, hh, hst,
            hasPullStart_append, hasPullStart_cmdEvents, hasPullStart_notifyMap]
        · intro habs
          simp [processProject, henabled, hpath, hgit, hdm, hh, hst,
            hasDispatch_append, hasDispatch_cmdEvents, hasDispatch_notifyMap] at habs
      | true =>
        have hpnh : probeNotHealthy env p = true := by
          simp [probeNotHealthy, hh, hst]
        have hside : p.deployMethod = "docker-compose" ∧ probeNotHealthy env p = true :=
          ⟨eq_of_beq hdm, hpnh⟩
        rcases hd2 : (deployProject env p).2 with e | b
        · refine ⟨?_, fun _ => hside⟩
          simp [processProject, henabled, hpath, hgit, hdm, hh, hst, hd2,
            hasPullStart_append, hasPullStart_cmdEvents, hasPullStart_notifyMap,
            deployProject_no_pullStart, hasPullStart_notify_singleton]
        · cases b with
          | false =>
            refine ⟨?_, fun _ => hside⟩
            simp [processProject, henabled, hpath, hgit, hdm, hh, hst, hd2,
              hasPullStart_append, hasPullStart_cmdEvents, hasPullStart_notifyMap,
              deployProject_no_pullStart, hasPullStart_notify_singleton]
          | true =>
            refine ⟨?_, fun _ => hside⟩
            simp [processProject, henabled, hpath, hgit, hdm, hh, hst, hd2,
              hasPullStart_append, hasPullStart_cmdEvents, hasPullStart_notifyMap,
              deployProject_no_pullStart, hasPullStart_notify_singleton]

/-- C1 (amended): for an enabled project with an existing path whose local,
remote and merge-base commits are pairwise distinct (diverged),
`check_git_status` returns `None` having sent exactly the single divergence
notification; `pull_changes` is never invoked in that cycle, and the
deploy-method dispatch can be reached in that cycle only through the
health-recovery branch (deploy method `docker-compose` with a probe result
that is not `healthy`). -/
theorem claim1_diverged_detection (env : Env) (p : Project) (fo lo ro bo : String)
    (henabled : p.enabled = true) (hpath : env.pathExists p.path = true)
    (h1 : env.run ("git fetch origin " ++ p.branch) (some p.path) = (true, fo))
    (h2 : env.run "git rev-parse @" (some p.path) = (true, lo))
    (h3 : env.run "git rev-parse @\x7bu\x7d" (some p.path) = (true, ro))
    (h4 : env.run "git merge-base @ @\x7bu\x7d" (some p.path) = (true, bo))
    (hlr : pyStrip lo ≠ pyStrip ro) (hlb : pyStrip lo ≠ pyStrip bo)
    (hrb : pyStrip ro ≠ pyStrip bo) :
    (checkGitStatus env p).2.2 = GitStatus.noneRes ∧
    (checkGitStatus env p).2.1 =
      ["âš ï¸ " ++ p.name ++ ": Branches have diverged - manual intervention needed"] ∧
    hasPullStart (processProject env p).1 = false ∧
    (hasDispatch (processProject env p).1 = true →
      p.deployMethod = "docker-compose" ∧ probeNotHealthy env p = true) := by
  have hgit := checkGitStatus_diverged env p fo lo ro bo h1 h2 h3 h4 hlr hlb hrb
  have hbr := processProject_noneRes env p _ _ henabled hpath hgit
  exact ⟨by rw [hgit], by rw [hgit], hbr.1, hbr.2⟩

/-- Witness for C1 at `envDiv`/`projDC` (local `aaa`, remote `bbb`, base
`ccc`). -/
theorem claim1_diverged_detection_witness :
    (projDC.enabled = true ∧ envDiv.pathExists projDC.path = true ∧
     envDiv.run ("git fetch origin " ++ projDC.branch) (some projDC.path) = (true, "aaa") ∧
     envDiv.run "git rev-parse @" (some projDC.path) = (true, "aaa") ∧
     envDiv.run "git rev-parse @\x7bu\x7d" (some projDC.path) = (true, "bbb") ∧
     envDiv.run "git merge-base @ @\x7bu\x7d" (some projDC.path) = (true, "ccc") ∧
     pyStrip "aaa" ≠ pyStrip "bbb" ∧ pyStrip "aaa" ≠ pyStrip "ccc" ∧
     pyStrip "bbb" ≠ pyStrip "ccc") ∧
    ((checkGitStatus envDiv projDC).2.2 = GitStatus.noneRes ∧
     (checkGitStatus envDiv projDC).2.1 =
       ["âš ï¸ " ++ projDC.name ++ ": Branches have diverged - manual intervention needed"] ∧
     hasPullStart (processProject envDiv projDC).1 = false ∧
     (hasDispatch (processProject envDiv projDC).1 = true →
       projDC.deployMethod = "docker-compose" ∧ probeNotHealthy envDiv projDC = true)) :=
  ⟨⟨rfl, rfl, rfl, rfl, rfl, rfl, by decide, by decide, by decide⟩,
   claim1_diverged_detection envDiv projDC "aaa" "aaa" "bbb" "ccc" rfl rfl rfl rfl rfl rfl
     (by decide) (by decide) (by decide)⟩

/-- C1 counterexample: at `envDiv`/`projDC` the three commits are pairwise
distinct (diverged) and exactly one notification is sent, yet the deploy
dispatch IS reached in the same cycle (the `None` return value funnels the
diverged project into the docker-compose health-recovery redeploy), refuting
the claim's "no deploy is attempted for that project in that cycle". -/
theorem claim1_diverged_counterexample :
    pyStrip (envDiv.run "git rev-parse @" (some projDC.path)).2
      ≠ pyStrip (envDiv.run "git rev-parse @\x7bu\x7d" (some projDC.path)).2 ∧
    pyStrip (envDiv.run "git rev-parse @" (some projDC.path)).2
      ≠ pyStrip (envDiv.run "git merge-base @ @\x7bu\x7d" (some projDC.path)).2 ∧
    pyStrip (envDiv.run "git rev-parse @\x7bu\x7d" (some projDC.path)).2
      ≠ pyStrip (envDiv.run "git merge-base @ @\x7bu\x7d" (some projDC.path)).2 ∧
    (checkGitStatus envDiv projDC).2.1.length = 1 ∧
    hasDispatch (processProject envDiv projDC).1 = true :=
  ⟨by decide, by decide, by decide, by decide, by decide⟩

/-- C2 (amended): for an enabled project with an existing path whose local
commit equals the remote commit after fetch, `check_git_status` returns `None`
(the up-to-date result) with no notification, and `pull_changes` is never
invoked in that cycle; the deploy-method dispatch can be reached in that cycle
only through the health-recovery branch (deploy method `docker-compose` with a
probe result that is not `healthy`). -/
theorem claim2_up_to_date (env : Env) (p : Project) (fo lo ro bo : String)
    (henabled : p.enabled = true) (hpath : env.pathExists p.path = true)
    (h1 : env.run ("git fetch origin " ++ p.branch) (some p.path) = (true, fo))
    (h2 : env.run "git rev-parse @" (some p.path) = (true, lo))
    (h3 : env.run "git rev-parse @\x7bu\x7d" (some p.path) = (true, ro))
    (h4 : env.run "git merge-base @ @\x7bu\x7d" (some p.path) = (true, bo))
    (heq : pyStrip lo = pyStrip ro) :
    (checkGitStatus env p).2.2 = GitStatus.noneRes ∧
    (checkGitStatus env p).2.1 = [] ∧
    hasPullStart (processProject env p).1 = false ∧
    (hasDispatch (processProject env p).1 = true →
      p.deployMethod = "docker-compose" ∧ probeNotHealthy env p = true) := by
  have hgit := checkGitStatus_upToDate env p fo lo ro bo h1 h2 h3 h4 heq
  have hbr := processProject_noneRes env p _ _ henabled hpath hgit
  exact ⟨by rw [hgit], by rw [hgit], hbr.1, hbr.2⟩

/-- Witness for C2 at `envUp`/`projDC` (all hashes `aaa`). -/
theorem claim2_up_to_date_witness :
    (projDC.enabled = true ∧ envUp.pathExists projDC.path = true ∧
     envUp.run ("git fetch origin " ++ projDC.branch) (some projDC.path) = (true, "aaa") ∧
     envUp.run "git rev-parse @" (some projDC.path) = (true, "aaa") ∧
     envUp.run "git rev-parse @\x7bu\x7d" (some projDC.path) = (true, "aaa") ∧
     envUp.run "git merge-base @ @\x7bu\x7d" (some projDC.path) = (true, "aaa") ∧
     pyStrip "aaa" = pyStrip "aaa") ∧
    ((checkGitStatus envUp projDC).2.2 = GitStatus.noneRes ∧
     (checkGitStatus envUp projDC).2.1 = [] ∧
     hasPullStart (processProject envUp projDC).1 = false ∧
     (hasDispatch (processProject envUp projDC).1 = true →
       projDC.deployMethod = "docker-compose" ∧ probeNotHealthy envUp projDC = true)) :=
  ⟨⟨rfl, rfl, rfl, rfl, rfl, rfl, rfl⟩,
   claim2_up_to_date envUp projDC "aaa" "aaa" "aaa" "aaa" rfl rfl rfl rfl rfl rfl rfl⟩

/-- C2 counterexample: at `envUp`/`projDC` the local and remote commits are
equal (up to date), yet the deploy dispatch IS reached in that cycle (the
docker-compose health probe finds no matching container, triggering the
health-recovery redeploy), refuting the claim's "no pull and no deploy occurs
for that project in that cycle". -/
theorem claim2_up_to_date_counterexample :
    pyStrip (envUp.run "git rev-parse @" (some projDC.path)).2
      = pyStrip (envUp.run "git rev-parse @\x7bu\x7d" (some projDC.path)).2 ∧
    (checkGitStatus envUp projDC).2.2 = GitStatus.noneRes ∧
    (checkGitStatus envUp projDC).2.1 = [] ∧
    probeNotHealthy envUp projDC = true ∧
    hasDispatch (processProject envUp projDC).1 = true :=
  ⟨by decide, by decide, by decide, by decide, by decide⟩

/-- C3 (amended): for an update-driven deployment (one following a Behind
detection), `pull_changes` is invoked before the method dispatch: the trace
enters `pull_changes` right after the git check and no dispatch occurs up to
the end of `pull_changes`; a dirty working tree (failing quiet diff check)
causes a timestamped stash command before the pull; and a pull failure aborts
the cycle with no dispatch at all.  (A health-recovery deployment, by
contrast, reaches dispatch without `pull_changes`: see the counterexample.) -/
theorem claim3_pull_before_dispatch (env : Env) (p : Project) (fo lo ro bo m a : String)
    (henabled : p.enabled = true) (hpath : env.pathExists p.path = true)
    (h1 : env.run ("git fetch origin " ++ p.branch) (some p.path) = (true, fo))
    (h2 : env.run "git rev-parse @" (some p.path) = (true, lo))
    (h3 : env.run "git rev-parse @\x7bu\x7d" (some p.path) = (true, ro))
    (h4 : env.run "git merge-base @ @\x7bu\x7d" (some p.path) = (true, bo))
    (h5 : env.run "git log -1 --pretty=%B FETCH_HEAD" (some p.path) = (true, m))
    (h6 : env.run "git log -1 --pretty=%an FETCH_HEAD" (some p.path) = (true, a))
    (hlr : pyStrip lo ≠ pyStrip ro) (hlb : pyStrip lo = pyStrip bo) :
    (∃ rest, (processProject env p).1 =
        cmdEvents (checkGitStatus env p).1 ++ [Event.pullStart]
          ++ cmdEvents (pullChanges env p).1 ++ rest) ∧
    hasDispatch (cmdEvents (checkGitStatus env p).1 ++ [Event.pullStart]
        ++ cmdEvents (pullChanges env p).1) = false ∧
    ((env.run "git diff-index --quiet HEAD --" (some p.path)).1 = false →
      ("git stash save \x27Auto-stash before update " ++ env.nowStamp ++ "\x27", some p.path)
        ∈ (pullChanges env p).1) ∧
    ((env.run ("git pull origin " ++ p.branch) (some p.path)).1 = false →
      hasDispatch (processProject env p).1 = false) := by
  have hgit := checkGitStatus_behind env p fo lo ro bo m a h1 h2 h3 h4 h5 h6 hlr hlb
  have hnd : hasDispatch (cmdEvents (checkGitStatus env p).1 ++ [Event.pullStart]
      ++ cmdEvents (pullChanges env p).1) = false := by
    simp [hasDispatch_append, hasDispatch_cmdEvents, hasDispatch_pullStart_singleton,
      hasDispatch_cons_pullStart]
  have hstash : (env.run "git diff-index --quiet HEAD --" (some p.path)).1 = false →
      ("git stash save \x27Auto-stash before update " ++ env.nowStamp ++ "\x27", some p.path)
        ∈ (pullChanges env p).1 := by
    intro hdiff
    simp [pullChanges, hdiff]
  cases hpok : (pullChanges env p).2 with
  | false =>
    have htrace : (processProject env p).1 =
        cmdEvents (checkGitStatus env p).1 ++ [Event.pullStart]
          ++ cmdEvents (pullChanges env p).1
          ++ [Event.notify ("âŒ " ++ p.name ++ ": Failed to pull updates")] := by
      simp [processProject, henabled, hpath, hgit, hpok]
    refine ⟨⟨_, htrace⟩, hnd, hstash, fun _ => ?_⟩
    rw [htrace]
    simp [hasDispatch_append, hasDispatch_cmdEvents, hasDispatch_pullStart_singleton,
      hasDispatch_notify_singleton, hasDispatch_cons_pullStart, hasDispatch_cons_notify,
      hasDispatch_nil]
  | true =>
    have hpullOk : ¬ ((env.run ("git pull origin " ++ p.branch) (some p.path)).1 = false) := by
      intro hpull
      simp [pullChanges, hpull] at hpok
    rcases hd2 : (deployProject env p).2 with e | b
    · refine ⟨⟨(deployProject env p).1, ?_⟩, hnd, hstash, fun hpull => absurd hpull hpullOk⟩
      simp [processProject, henabled, hpath, hgit, hpok, hd2]
    · cases b with
      | false =>
        refine ⟨⟨(deployProject env p).1
            ++ [Event.notify ("âŒ " ++ p.name ++ ": Deployment failed after update")], ?_⟩,
          hnd, hstash, fun hpull => absurd hpull hpullOk⟩
        simp [processProject, henabled, hpath, hgit, hpok, hd2]
      | true =>
        refine ⟨⟨(deployProject env p).1
            ++ [Event.notify ("âœ… " ++ p.name ++ ": Successfully updated and deployed\nðŸ“ "
                 ++ pyStrip m ++ "\nðŸ‘¤ " ++ pyStrip a)], ?_⟩,
          hnd, hstash, fun hpull => absurd hpull hpullOk⟩
        simp [processProject, henabled, hpath, hgit, hpok, hd2]

/-- Witness for C3 at `envBehind`/`projDC` (behind remote with a dirty working
tree). -/
theorem claim3_pull_before_dispatch_witness :
    (projDC.enabled = true ∧ envBehind.pathExists projDC.path = true ∧
     envBehind.run ("git fetch origin " ++ projDC.branch) (some projDC.path) = (true, "aaa") ∧
     envBehind.run "git rev-parse @" (some projDC.path) = (true, "aaa") ∧
     envBehind.run "git rev-parse @\x7bu\x7d" (some projDC.path) = (true, "bbb") ∧
     envBehind.run "git merge-base @ @\x7bu\x7d" (some projDC.path) = (true, "aaa") ∧
     envBehind.run "git log -1 --pretty=%B FETCH_HEAD" (some projDC.path) = (true, "aaa") ∧
     envBehind.run "git log -1 --pretty=%an FETCH_HEAD" (some projDC.path) = (true, "aaa") ∧
     pyStrip "aaa" ≠ pyStrip "bbb" ∧ pyStrip "aaa" = pyStrip "aaa") ∧
    ((∃ rest, (processProject envBehind projDC).1 =
        cmdEvents (checkGitStatus envBehind projDC).1 ++ [Event.pullStart]
          ++ cmdEvents (pullChanges envBehind projDC).1 ++ rest) ∧
     hasDispatch (cmdEvents (checkGitStatus envBehind projDC).1 ++ [Event.pullStart]
        ++ cmdEvents (pullChanges envBehind projDC).1) = false ∧
     ((envBehind.run "git diff-index --quiet HEAD --" (some projDC.path)).1 = false →
       ("git stash save \x27Auto-stash before update " ++ envBehind.nowStamp ++ "\x27",
         some projDC.path) ∈ (pullChanges envBehind projDC).1) ∧
     ((envBehind.run ("git pull origin " ++ projDC.branch) (some projDC.path)).1 = false →
       hasDispatch (processProject envBehind projDC).1 = false)) :=
  ⟨⟨rfl, rfl, rfl, rfl, rfl, rfl, rfl, rfl, by decide, rfl⟩,
   claim3_pull_before_dispatch envBehind projDC "aaa" "aaa" "bbb" "aaa" "aaa" "aaa"
     rfl rfl rfl rfl rfl rfl rfl rfl (by decide) rfl⟩

/-- C3 counterexample: at `envUp`/`projDC` a deployment reaches the method
dispatch (the health-recovery redeploy of an up-to-date but unhealthy
docker-compose project) although `pull_changes` was never invoked in the
cycle, refuting "for every deployment that reaches method dispatch,
pull_changes has been invoked beforehand". -/
theorem claim3_pull_before_dispatch_counterexample :
    hasDispatch (processProject envUp projDC).1 = true ∧
    hasPullStart (processProject envUp projDC).1 = false :=
  ⟨by decide, by decide⟩

/-- C4: when any pre-deploy command fails, `deploy_project` returns failure,
its whole trace consists of pre-deploy commands only (so no dispatch, no
stop/build/start, restart or script command), and no deploy-history entry is
appended. -/
theorem claim4_pre_deploy_aborts (env : Env) (p : Project)
    (h : (runCommands env p.preDeploy (some p.path)).2 = false) :
    deployProject env p
      = (cmdEvents (runCommands env p.preDeploy (some p.path)).1, Except.ok false) ∧
    hasDispatch (deployProject env p).1 = false ∧
    hasDeployRec (deployProject env p).1 = false ∧
    (∀ e ∈ (deployProject env p).1, ∃ c, c ∈ p.preDeploy ∧ e = Event.cmd c (some p.path)) := by
  have hd : deployProject env p
      = (cmdEvents (runCommands env p.preDeploy (some p.path)).1, Except.ok false) := by
    simp [deployProject, h]
  refine ⟨hd, ?_, ?_, ?_⟩
  · rw [hd]; exact hasDispatch_cmdEvents _
  · rw [hd]; exact hasDeployRec_cmdEvents _
  · intro e he
    rw [hd] at he
    rcases List.mem_map.mp he with ⟨cw, hcw, rfl⟩
    rcases runCommands_mem env (some p.path) p.preDeploy cw hcw with ⟨hc1, hc2⟩
    exact ⟨cw.1, hc1, by rw [hc2]⟩

/-- Witness for C4 at `envPreFail`/`projPre` (pre-deploy command `failcmd`
exits non-zero). -/
theorem claim4_pre_deploy_aborts_witness :
    ((runCommands envPreFail projPre.preDeploy (some projPre.path)).2 = false) ∧
    (deployProject envPreFail projPre
        = (cmdEvents (runCommands envPreFail projPre.preDeploy (some projPre.path)).1,
           Except.ok false) ∧
     hasDispatch (deployProject envPreFail projPre).1 = false ∧
     hasDeployRec (deployProject envPreFail projPre).1 = false ∧
     (∀ e ∈ (deployProject envPreFail projPre).1,
        ∃ c, c ∈ projPre.preDeploy ∧ e = Event.cmd c (some projPre.path))) :=
  ⟨by decide, claim4_pre_deploy_aborts envPreFail projPre (by decide)⟩

/-- C9: when the pre-deploy commands and the method dispatch succeed, a
failing post-deploy command does not flip the result: `deploy_project` still
returns success and still appends the deploy-history entry. -/
theorem claim9_post_deploy_failure_nonfatal (env : Env) (p : Project)
    (hpre : (runCommands env p.preDeploy (some p.path)).2 = true)
    (hdisp : (dispatchMethod env p).2 = Except.ok true)
    (_hpost : (runCommands env p.postDeploy (some p.path)).2 = false) :
    (deployProject env p).2 = Except.ok true ∧
    Event.deployRecord p.name env.now ∈ (deployProject env p).1 := by
  constructor
  · simp [deployProject, hpre, hdisp]
  · simp [deployProject, hpre, hdisp]

/-- Witness for C9 at `envPostFail`/`projPost` (dispatch succeeds, post-deploy
command `badpost` fails). -/
theorem claim9_post_deploy_failure_nonfatal_witness :
    ((runCommands envPostFail projPost.preDeploy (some projPost.path)).2 = true ∧
     (dispatchMethod envPostFail projPost).2 = Except.ok true ∧
     (runCommands envPostFail projPost.postDeploy (some projPost.path)).2 = false) ∧
    ((deployProject envPostFail projPost).2 = Except.ok true ∧
     Event.deployRecord projPost.name envPostFail.now ∈ (deployProject envPostFail projPost).1) :=
  ⟨⟨rfl, rfl, by decide⟩,
   claim9_post_deploy_failure_nonfatal envPostFail projPost rfl rfl (by decide)⟩

/-- C8: for a repository behind its remote (local equals merge-base, remote
differs), `check_git_status` returns the update dict with the local and remote
identifiers truncated to 8 characters and the stripped commit message and
author read from `FETCH_HEAD`. -/
theorem claim8_behind_update_info (env : Env) (p : Project) (fo lo ro bo m a : String)
    (h1 : env.run ("git fetch origin " ++ p.branch) (some p.path) = (true, fo))
    (h2 : env.run "git rev-parse @" (some p.path) = (true, lo))
    (h3 : env.run "git rev-parse @\x7bu\x7d" (some p.path) = (true, ro))
    (h4 : env.run "git merge-base @ @\x7bu\x7d" (some p.path) = (true, bo))
    (h5 : env.run "git log -1 --pretty=%B FETCH_HEAD" (some p.path) = (true, m))
    (h6 : env.run "git log -1 --pretty=%an FETCH_HEAD" (some p.path) = (true, a))
    (hlr : pyStrip lo ≠ pyStrip ro) (hlb : pyStrip lo = pyStrip bo) :
    (checkGitStatus env p).2.2 =
      GitStatus.update ⟨(pyStrip lo).take 8, (pyStrip ro).take 8, pyStrip m, pyStrip a⟩ := by
  rw [checkGitStatus_behind env p fo lo ro bo m a h1 h2 h3 h4 h5 h6 hlr hlb]

/-- Witness for C8 at `envBehindLong`/`projDC`: 12-character hashes truncate
to 8 characters and the fetched commit message/author (`fix bug` by `alice`)
are carried in the update info. -/
theorem claim8_behind_update_info_witness :
    (envBehindLong.run ("git fetch origin " ++ projDC.branch) (some projDC.path) = (true, "") ∧
     envBehindLong.run "git rev-parse @" (some projDC.path) = (true, "aaaaaaaaaaa1") ∧
     envBehindLong.run "git rev-parse @\x7bu\x7d" (some projDC.path) = (true, "bbbbbbbbbbb2") ∧
     envBehindLong.run "git merge-base @ @\x7bu\x7d" (some projDC.path) = (true, "aaaaaaaaaaa1") ∧
     envBehindLong.run "git log -1 --pretty=%B FETCH_HEAD" (some projDC.path)
       = (true, "fix bug\n") ∧
     envBehindLong.run "git log -1 --pretty=%an FETCH_HEAD" (some projDC.path)
       = (true, "alice\n") ∧
     pyStrip "aaaaaaaaaaa1" ≠ pyStrip "bbbbbbbbbbb2" ∧
     pyStrip "aaaaaaaaaaa1" = pyStrip "aaaaaaaaaaa1") ∧
    (checkGitStatus envBehindLong projDC).2.2 =
      GitStatus.update ⟨(pyStrip "aaaaaaaaaaa1").take 8, (pyStrip "bbbbbbbbbbb2").take 8,
        pyStrip "fix bug\n", pyStrip "alice\n"⟩ ∧
    GitStatus.update ⟨(pyStrip "aaaaaaaaaaa1").take 8, (pyStrip "bbbbbbbbbbb2").take 8,
        pyStrip "fix bug\n", pyStrip "alice\n"⟩
      = GitStatus.update ⟨"aaaaaaaa", "bbbbbbbb", "fix bug", "alice"⟩ :=
  ⟨⟨rfl, rfl, rfl, rfl, rfl, rfl, by decide, rfl⟩,
   claim8_behind_update_info envBehindLong projDC "" "aaaaaaaaaaa1" "bbbbbbbbbbb2"
     "aaaaaaaaaaa1" "fix bug\n" "alice\n" rfl rfl rfl rfl rfl rfl (by decide) rfl,
   by decide⟩

/-- In every case except a truthy non-mapping `health` value the probe returns
a status: every modelled exception is caught and converted.  This is the
behaviour C5 describes; it fails only at the input of
`claim5_probe_propagates`. -/
theorem checkProjectHealth_ok_of_wellformed (env : Env) (p : Project)
    (h : p.health ≠ HealthVal.truthyNonDict) :
    ∃ st, (checkProjectHealth env p).2 = Except.ok st := by
  cases hv : p.health with
  | truthyNonDict => exact absurd hv h
  | absent =>
    exact ⟨(methodProbe env p none env.nowIso).2, by simp [checkProjectHealth, hv]⟩
  | falsyNonDict =>
    exact ⟨(methodProbe env p none env.nowIso).2, by simp [checkProjectHealth, hv]⟩
  | dict cfg =>
    cases hu : cfg.url with
    | none =>
      exact ⟨(methodProbe env p cfg.containerName env.nowIso).2,
        by simp [checkProjectHealth, hv, hu]⟩
    | some u =>
      cases hg : env.httpGet u with
      | error e =>
        exact ⟨⟨"unhealthy", env.nowIso, e, cfg.containerName⟩,
          by simp [checkProjectHealth, hv, hu, hg]⟩
      | ok code =>
        cases hc : code == cfg.expectedStatus.getD 200 with
        | true =>
          exact ⟨⟨"healthy", env.nowIso, "HTTP " ++ toString code, cfg.containerName⟩,
            by simp [checkProjectHealth, hv, hu, hg, hc]⟩
        | false =>
          exact ⟨⟨"unhealthy", env.nowIso, "HTTP " ++ toString code, cfg.containerName⟩,
            by simp [checkProjectHealth, hv, hu, hg, hc]⟩

/-- An exception raised by `requests.get` is converted to an unhealthy status
whose details field is the exception text (source line 510). -/
theorem checkProjectHealth_http_exception (env : Env) (p : Project) (cfg : HealthCfg)
    (u e : String) (hv : p.health = HealthVal.dict cfg) (hu : cfg.url = some u)
    (hg : env.httpGet u = Except.error e) :
    (checkProjectHealth env p).2
      = Except.ok ⟨"unhealthy", env.nowIso, e, cfg.containerName⟩ := by
  simp [checkProjectHealth, hv, hu, hg]

/-- C5 (code bug): at a project whose `health` value is a truthy non-mapping,
the `AttributeError` of `health_cfg.get('container_name')` (line 499) occurs
before `explicit_container` is bound, so the `except` handler itself raises
`UnboundLocalError` (line 659) — the probe propagates an exception instead of
returning an Unhealthy status with the exception text. -/
theorem claim5_probe_propagates :
    projBadHealth.health = HealthVal.truthyNonDict ∧
    (checkProjectHealth envUp projBadHealth).2 = Except.error unboundLocalMsg :=
  ⟨rfl, rfl⟩

theorem pairwise_dropWhile_ge {α : Type} (f : α → Int) (c : Int) :
    ∀ (l : List α), l.Pairwise (fun x y => f x ≤ f y) →
      ∀ x ∈ l.dropWhile (fun a => decide (f a < c)), c ≤ f x := by
  intro l
  induction l with
  | nil => intro _ x hx; simp [List.dropWhile] at hx
  | cons a t ih =>
    intro hp x hx
    rw [List.dropWhile_cons] at hx
    by_cases h : f a < c
    · rw [if_pos (decide_eq_true h)] at hx
      exact ih (List.pairwise_cons.mp hp).2 x hx
    · rw [if_neg (by simpa using h)] at hx
      rcases List.mem_cons.mp hx with rfl | hx
      · exact le_of_not_lt h
      · exact le_trans (le_of_not_lt h) ((List.pairwise_cons.mp hp).1 x hx)

/-- C7: after an append-plus-prune on either history log whose existing
entries are sorted and not newer than the appended timestamp, every remaining
entry is at least `ts - retention` old, and the pruned log is a suffix of the
appended log (entries are removed from the head only). -/
theorem claim7_retention_invariant (hlist : List (Int × Nat)) (dlist : List Int)
    (ts : Int) (flag : Nat) (retention : Int)
    (hh : hlist.Pairwise (fun x y => x.1 ≤ y.1)) (hhts : ∀ e ∈ hlist, e.1 ≤ ts)
    (hd : dlist.Pairwise (fun x y => x ≤ y)) (hdts : ∀ t ∈ dlist, t ≤ ts) :
    (∀ e ∈ recordHealthAppendPrune hlist ts flag retention, ts - retention ≤ e.1) ∧
    List.IsSuffix (recordHealthAppendPrune hlist ts flag retention) (hlist ++ [(ts, flag)]) ∧
    (∀ t ∈ recordDeployAppendPrune dlist ts retention, ts - retention ≤ t) ∧
    List.IsSuffix (recordDeployAppendPrune dlist ts retention) (dlist ++ [ts]) := by
  have hH : (hlist ++ [(ts, flag)]).Pairwise (fun x y => x.1 ≤ y.1) := by
    rw [List.pairwise_append]
    refine ⟨hh, List.pairwise_singleton _ _, fun x hx y hy => ?_⟩
    simp only [List.mem_singleton] at hy
    subst hy
    exact hhts x hx
  have hD : (dlist ++ [ts]).Pairwise (fun x y => x ≤ y) := by
    rw [List.pairwise_append]
    refine ⟨hd, List.pairwise_singleton _ _, fun x hx y hy => ?_⟩
    simp only [List.mem_singleton] at hy
    subst hy
    exact hdts x hx
  refine ⟨?_, ?_, ?_, ?_⟩
  · simp only [recordHealthAppendPrune]
    exact fun e he => pairwise_dropWhile_ge (fun x => x.1) (ts - retention) _ hH e he
  · simp only [recordHealthAppendPrune]
    exact List.dropWhile_suffix _
  · simp only [recordDeployAppendPrune]
    exact fun t ht => pairwise_dropWhile_ge (fun x => x) (ts - retention) _ hD t ht
  · simp only [recordDeployAppendPrune]
    exact List.dropWhile_suffix _

/-- Witness for C7 on concrete logs: entries at times 5 and 8, append at time
10 with retention 3 (so the cutoff 7 prunes the entry at 5). -/
theorem claim7_retention_invariant_witness :
    ([((5:Int), (0:Nat)), (8, 1)].Pairwise (fun x y => x.1 ≤ y.1) ∧
     (∀ e ∈ [((5:Int), (0:Nat)), (8, 1)], e.1 ≤ (10:Int)) ∧
     [(5:Int), 8].Pairwise (fun x y => x ≤ y) ∧
     (∀ t ∈ [(5:Int), 8], t ≤ (10:Int))) ∧
    ((∀ e ∈ recordHealthAppendPrune [((5:Int), (0:Nat)), (8, 1)] 10 1 3,
        (10:Int) - 3 ≤ e.1) ∧
     List.IsSuffix (recordHealthAppendPrune [((5:Int), (0:Nat)), (8, 1)] 10 1 3)
       ([((5:Int), (0:Nat)), (8, 1)] ++ [(10, 1)]) ∧
     (∀ t ∈ recordDeployAppendPrune [(5:Int), 8] 10 3, (10:Int) - 3 ≤ t) ∧
     List.IsSuffix (recordDeployAppendPrune [(5:Int), 8] 10 3) ([(5:Int), 8] ++ [10])) :=
  ⟨⟨by decide, by decide, by decide, by decide⟩,
   claim7_retention_invariant [((5:Int), (0:Nat)), (8, 1)] [(5:Int), 8] 10 1 3
     (by decide) (by decide) (by decide) (by decide)⟩

theorem dropWhile_concat_getLastD {α : Type} (p : α → Bool) (x : α) (d : α)
    (hx : p x = false) : ∀ l : List α, ((l ++ [x]).dropWhile p).getLastD d = x := by
  intro l
  induction l with
  | nil => simp [List.dropWhile, hx]
  | cons a t ih =>
    rw [List.cons_append, List.dropWhile_cons]
    by_cases h : p a = true
    · rw [if_pos h]; exact ih
    · rw [if_neg h, ← List.cons_append, List.getLastD_eq_getLast?, List.getLast?_concat]
      rfl

/-- C10: whenever the probe returns a status, the health scheduler records the
entry `(now, 1)` exactly when the probe's status string differs from
`healthy` and `(now, 0)` otherwise; in particular an `unknown` probe result is
recorded as unhealthy. -/
theorem claim10_unknown_counts_unhealthy (env : Env) (p : Project)
    (hlist : List (Int × Nat)) (retention : Int) (st : Health)
    (hok : (checkProjectHealth env p).2 = Except.ok st) (hret : 0 ≤ retention) :
    schedulerRecord env p hlist retention =
      Except.ok (recordHealthAppendPrune hlist env.now
        (if st.status != "healthy" then 1 else 0) retention) ∧
    (recordHealthAppendPrune hlist env.now (if st.status != "healthy" then 1 else 0)
        retention).getLastD (0, 0)
      = (env.now, if st.status != "healthy" then 1 else 0) ∧
    ((if st.status != "healthy" then (1:Nat) else 0) = 1 ↔ st.status ≠ "healthy") ∧
    (st.status = "unknown" → (if st.status != "healthy" then (1:Nat) else 0) = 1) := by
  refine ⟨by simp [schedulerRecord, hok], ?_, ?_, ?_⟩
  · apply dropWhile_concat_getLastD
    simp only [decide_eq_false_iff_not]
    omega
  · cases hb : st.status != "healthy" with
    | false =>
      have heq : st.status = "healthy" := by simpa using hb
      simp [hb, heq]
    | true =>
      have hne : st.status ≠ "healthy" := by simpa using hb
      simp [hb, hne]
  · intro hu
    rw [hu]
    decide

/-- Witness for C10 at `envUp`/`projNoStrategy`: the probe yields `unknown`
and the scheduler records the flag 1. -/
theorem claim10_unknown_counts_unhealthy_witness :
    ((checkProjectHealth envUp projNoStrategy).2
        = Except.ok ⟨"unknown", "2026-01-01T00:00:00Z", "No health check available", none⟩ ∧
     (0:Int) ≤ 604800) ∧
    (schedulerRecord envUp projNoStrategy [] 604800 =
      Except.ok (recordHealthAppendPrune [] envUp.now
        (if (Health.mk "unknown" "2026-01-01T00:00:00Z" "No health check available"
              none).status != "healthy" then 1 else 0) 604800) ∧
     (recordHealthAppendPrune [] envUp.now
        (if (Health.mk "unknown" "2026-01-01T00:00:00Z" "No health check available"
              none).status != "healthy" then 1 else 0) 604800).getLastD (0, 0)
      = (envUp.now, if (Health.mk "unknown" "2026-01-01T00:00:00Z" "No health check available"
              none).status != "healthy" then 1 else 0) ∧
     ((if (Health.mk "unknown" "2026-01-01T00:00:00Z" "No health check available"
              none).status != "healthy" then (1:Nat) else 0) = 1 ↔
        (Health.mk "unknown" "2026-01-01T00:00:00Z" "No health check available"
              none).status ≠ "healthy") ∧
     ((Health.mk "unknown" "2026-01-01T00:00:00Z" "No health check available"
              none).status = "unknown" →
        (if (Health.mk "unknown" "2026-01-01T00:00:00Z" "No health check available"
              none).status != "healthy" then (1:Nat) else 0) = 1)) :=
  ⟨⟨rfl, by decide⟩,
   claim10_unknown_counts_unhealthy envUp projNoStrategy [] 604800
     (Health.mk "unknown" "2026-01-01T00:00:00Z" "No health check available" none)
     rfl (by decide)⟩

theorem length_incAt (l : List Nat) (j : Nat) : (incAt l j).length = l.length := by
  simp [incAt]

theorem get0_replicate (n i : Nat) : get0 (List.replicate n 0) i = 0 := by
  induction n generalizing i with
  | zero => simp [get0]
  | succ n ih =>
    cases i with
    | zero => simp [get0, List.replicate]
    | succ i' => simp [get0, List.replicate]

theorem get0_incAt : ∀ (l : List Nat) (j : Nat), j < l.length → ∀ (i : Nat),
    get0 (incAt l j) i = if i = j then get0 l i + 1 else get0 l i := by
  intro l
  induction l with
  | nil => intro j hj; simp at hj
  | cons a t ih =>
    intro j hj i
    cases j with
    | zero =>
      cases i with
      | zero => simp [incAt, get0]
      | succ i' => simp [incAt, get0]
    | succ j' =>
      have hj' : j' < t.length := by simpa using hj
      cases i with
      | zero => simp [incAt, get0]
      | succ i' =>
        have := ih j' hj' i'
        simpa [incAt, get0] using this

theorem bucketFoldl_spec (start now bSize : Int) (nb : Nat) :
    ∀ (l : List (Int × Nat)) (a u : List Nat), a.length = nb → u.length = nb →
      ((l.foldl (bucketStep start now bSize nb) (a, u)).1.length = nb ∧
       (l.foldl (bucketStep start now bSize nb) (a, u)).2.length = nb) ∧
      ∀ i, i < nb →
        get0 (l.foldl (bucketStep start now bSize nb) (a, u)).1 i
          = get0 a i + l.countP (bucketHit start now bSize nb i) ∧
        get0 (l.foldl (bucketStep start now bSize nb) (a, u)).2 i
          = get0 u i + l.countP (fun e => bucketHit start now bSize nb i e && (e.2 != 0)) := by
  intro l
  induction l with
  | nil =>
    intro a u ha hu
    exact ⟨⟨ha, hu⟩, fun i _ => ⟨by simp, by simp⟩⟩
  | cons e t ih =>
    intro a u ha hu
    rw [List.foldl_cons]
    by_cases h1 : e.1 < start
    · have hstep : bucketStep start now bSize nb (a, u) e = (a, u) := by
        simp [bucketStep, h1]
      have hhit : ∀ i, bucketHit start now bSize nb i e = false := by
        intro i; simp [bucketHit, h1]
      rw [hstep]
      rcases ih a u ha hu with ⟨hlen, hget⟩
      refine ⟨hlen, fun i hi => ?_⟩
      rcases hget i hi with ⟨hg1, hg2⟩
      constructor
      · rw [hg1, List.countP_cons]; simp [hhit i]
      · rw [hg2, List.countP_cons]; simp [hhit i]
    · by_cases h2 : now ≤ e.1
      · have hstep : bucketStep start now bSize nb (a, u) e = (a, u) := by
          simp [bucketStep, h1, h2]
        have hhit : ∀ i, bucketHit start now bSize nb i e = false := by
          intro i; simp [bucketHit, h1, h2]
        rw [hstep]
        rcases ih a u ha hu with ⟨hlen, hget⟩
        refine ⟨hlen, fun i hi => ?_⟩
        rcases hget i hi with ⟨hg1, hg2⟩
        constructor
        · rw [hg1, List.countP_cons]; simp [hhit i]
        · rw [hg2, List.countP_cons]; simp [hhit i]
      · by_cases h3 : (e.1 - start).fdiv bSize < 0
        · have hstep : bucketStep start now bSize nb (a, u) e = (a, u) := by
            simp [bucketStep, h1, h2, h3]
          have hhit : ∀ i, bucketHit start now bSize nb i e = false := by
            intro i; simp [bucketHit, h1, h2, h3]
          rw [hstep]
          rcases ih a u ha hu with ⟨hlen, hget⟩
          refine ⟨hlen, fun i hi => ?_⟩
          rcases hget i hi with ⟨hg1, hg2⟩
          constructor
          · rw [hg1, List.countP_cons]; simp [hhit i]
          · rw [hg2, List.countP_cons]; simp [hhit i]
        · by_cases h4 : (nb : Int) ≤ (e.1 - start).fdiv bSize
          · have hstep : bucketStep start now bSize nb (a, u) e = (a, u) := by
              simp [bucketStep, h1, h2, h3, h4]
            have hhit : ∀ i, bucketHit start now bSize nb i e = false := by
              intro i; simp [bucketHit, h1, h2, h3, h4]
            rw [hstep]
            rcases ih a u ha hu with ⟨hlen, hget⟩
            refine ⟨hlen, fun i hi => ?_⟩
            rcases hget i hi with ⟨hg1, hg2⟩
            constructor
            · rw [hg1, List.countP_cons]; simp [hhit i]
            · rw [hg2, List.countP_cons]; simp [hhit i]
          · have hjlt : ((e.1 - start).fdiv bSize).toNat < nb := by omega
            have hja : ((e.1 - start).fdiv bSize).toNat < a.length := by rw [ha]; exact hjlt
            have hju : ((e.1 - start).fdiv bSize).toNat < u.length := by rw [hu]; exact hjlt
            have hstep : bucketStep start now bSize nb (a, u) e
                = (incAt a ((e.1 - start).fdiv bSize).toNat,
                   if e.2 != 0 then incAt u ((e.1 - start).fdiv bSize).toNat else u) := by
              simp [bucketStep, h1, h2, h3, h4]
            have hhit : ∀ i, bucketHit start now bSize nb i e
                = (((e.1 - start).fdiv bSize).toNat == i) := by
              intro i; simp [bucketHit, h1, h2, h3, h4]
            rw [hstep]
            by_cases hf : (e.2 != 0) = true
            · rw [if_pos hf]
              rcases ih (incAt a (((e.1 - start).fdiv bSize).toNat))
                  (incAt u (((e.1 - start).fdiv bSize).toNat))
                  (by rw [length_incAt]; exact ha) (by rw [length_incAt]; exact hu)
                with ⟨hlen, hget⟩
              refine ⟨hlen, fun i hi => ?_⟩
              rcases hget i hi with ⟨hg1, hg2⟩
              constructor
              · rw [hg1, get0_incAt a _ hja i, List.countP_cons, hhit i]
                by_cases hij : i = ((e.1 - start).fdiv bSize).toNat
                · rw [if_pos hij, if_pos (beq_iff_eq.mpr hij.symm)]
                  omega
                · rw [if_neg hij,
                    if_neg (by simp only [beq_iff_eq]; exact fun hh => hij hh.symm)]
                  omega
              · have hpred : (bucketHit start now bSize nb i e && (e.2 != 0))
                    = (((e.1 - start).fdiv bSize).toNat == i) := by
                  rw [hhit i, hf, Bool.and_true]
                rw [hg2, get0_incAt u _ hju i, List.countP_cons, hpred]
                by_cases hij : i = ((e.1 - start).fdiv bSize).toNat
                · rw [if_pos hij, if_pos (beq_iff_eq.mpr hij.symm)]
                  omega
                · rw [if_neg hij,
                    if_neg (by simp only [beq_iff_eq]; exact fun hh => hij hh.symm)]
                  omega
            · rw [if_neg hf]
              rcases ih (incAt a (((e.1 - start).fdiv bSize).toNat)) u
                  (by rw [length_incAt]; exact ha) hu with ⟨hlen, hget⟩
              refine ⟨hlen, fun i hi => ?_⟩
              rcases hget i hi with ⟨hg1, hg2⟩
              constructor
              · rw [hg1, get0_incAt a _ hja i, List.countP_cons, hhit i]
                by_cases hij : i = ((e.1 - start).fdiv bSize).toNat
                · rw [if_pos hij, if_pos (beq_iff_eq.mpr hij.symm)]
                  omega
                · rw [if_neg hij,
                    if_neg (by simp only [beq_iff_eq]; exact fun hh => hij hh.symm)]
                  omega
              · have hf' : (e.2 != 0) = false := by simpa using hf
                have hpred : (bucketHit start now bSize nb i e && (e.2 != 0)) = false := by
                  rw [hf', Bool.and_false]
                rw [hg2, List.countP_cons, hpred]
                simp

theorem bucketAccum_len_get (start now bSize : Int) (nb : Nat) (l : List (Int × Nat)) :
    (bucketAccum start now bSize nb l).1.length = nb ∧
    (bucketAccum start now bSize nb l).2.length = nb ∧
    ∀ i, i < nb →
      get0 (bucketAccum start now bSize nb l).1 i
        = l.countP (bucketHit start now bSize nb i) ∧
      get0 (bucketAccum start now bSize nb l).2 i
        = l.countP (fun e => bucketHit start now bSize nb i e && (e.2 != 0)) := by
  rcases bucketFoldl_spec start now bSize nb l (List.replicate nb 0) (List.replicate nb 0)
      (by simp) (by simp) with ⟨⟨hl1, hl2⟩, hget⟩
  refine ⟨hl1, hl2, fun i hi => ?_⟩
  rcases hget i hi with ⟨hg1, hg2⟩
  rw [bucketAccum, hg1, hg2, get0_replicate]
  simp

theorem bucketAccum_filter (start now bSize : Int) (nb : Nat) :
    ∀ (l : List (Int × Nat)) (acc : List Nat × List Nat),
      l.foldl (bucketStep start now bSize nb) acc
        = (l.filter (fun e => decide (start ≤ e.1) && decide (e.1 < now))).foldl
            (bucketStep start now bSize nb) acc := by
  intro l
  induction l with
  | nil => intro _; rfl
  | cons e t ih =>
    intro acc
    rw [List.foldl_cons, List.filter_cons]
    by_cases hw : (decide (start ≤ e.1) && decide (e.1 < now)) = true
    · rw [if_pos hw, List.foldl_cons]
      exact ih _
    · rw [if_neg hw]
      simp only [Bool.and_eq_true, decide_eq_true_eq] at hw
      have hstep : bucketStep start now bSize nb acc e = acc := by
        by_cases h1 : e.1 < start
        · simp [bucketStep, h1]
        · have h2 : now ≤ e.1 := by omega
          simp [bucketStep, h1, h2]
      rw [hstep]
      exact ih acc

theorem pctList_length (c u : List Nat) : (pctList c u).length = min c.length u.length := by
  simp [pctList]

theorem pctList_getD : ∀ (c u : List Nat) (i : Nat), i < c.length → i < u.length →
    (pctList c u).getD i 0
      = (if get0 c i = 0 then 0
         else round2 ((get0 u i : ℚ) / (get0 c i : ℚ) * 100)) := by
  intro c
  induction c with
  | nil => intro u i hi _; simp at hi
  | cons a t ih =>
    intro u i hic hiu
    cases u with
    | nil => simp at hiu
    | cons b s =>
      cases i with
      | zero => simp [pctList, get0]
      | succ i' =>
        have := ih s i' (by simpa using hic) (by simpa using hiu)
        simpa [pctList, get0] using this

/-- C6: for the `1h` window, `api_downtime` always produces exactly 60 labels
and a 60-entry percentage series regardless of how many entries lie in the
window; entries outside `[window_start, now)` never influence the series; and
bucket `i` reports 0 when it holds no sample, and otherwise
`round(unhealthy/total*100, 2)` over the samples whose floor-division bucket
index is `i`. -/
theorem claim6_downtime_buckets (now : Int) (entries : List (Int × Nat)) :
    (apiDowntimeLabels now "1h").length = 60 ∧
    (apiDowntimeSeries now "1h" entries).length = 60 ∧
    apiDowntimeSeries now "1h" entries
      = apiDowntimeSeries now "1h"
          (entries.filter (fun e => decide (now - 3600 ≤ e.1) && decide (e.1 < now))) ∧
    (∀ i, i < 60 →
      (apiDowntimeSeries now "1h" entries).getD i 0
        = (if entries.countP (bucketHit (now - 3600) now 60 60 i) = 0 then 0
           else round2
             ((entries.countP
                 (fun e => bucketHit (now - 3600) now 60 60 i e && (e.2 != 0)) : ℚ)
               / (entries.countP (bucketHit (now - 3600) now 60 60 i) : ℚ) * 100))) := by
  have hp : downtimeParams "1h" = ((3600 : Int), (60 : Int)) := rfl
  have hnb : ((3600 : Int) / 60).toNat = 60 := by decide
  have hseries : ∀ (l : List (Int × Nat)), apiDowntimeSeries now "1h" l
      = pctList (bucketAccum (now - 3600) now 60 60 l).1
                (bucketAccum (now - 3600) now 60 60 l).2 := by
    intro l
    simp [apiDowntimeSeries, hp, hnb]
  rcases bucketAccum_len_get (now - 3600) now 60 60 entries with ⟨hc_len, hu_len, hget⟩
  refine ⟨?_, ?_, ?_, ?_⟩
  · simp only [apiDowntimeLabels, hp, List.length_map, List.length_range]
    exact hnb
  · rw [hseries, pctList_length, hc_len, hu_len]
    exact min_self 60
  · rw [hseries, hseries]
    have hfil : bucketAccum (now - 3600) now 60 60 entries
        = bucketAccum (now - 3600) now 60 60
            (entries.filter (fun e => decide (now - 3600 ≤ e.1) && decide (e.1 < now))) := by
      rw [bucketAccum, bucketAccum]
      exact bucketAccum_filter (now - 3600) now 60 60 entries _
    rw [hfil]
  · intro i hi
    rw [hseries, pctList_getD _ _ i (by rw [hc_len]; exact hi) (by rw [hu_len]; exact hi),
      (hget i hi).1, (hget i hi).2]

/-- Witness for C6: two samples at time 3599 (one unhealthy) with `now = 3600`
land in bucket 59. -/
theorem claim6_downtime_buckets_witness :
    (59 < 60) ∧
    (apiDowntimeSeries 3600 "1h" [((3599 : Int), (1 : Nat)), (3599, 0)]).getD 59 0
      = (if List.countP (bucketHit (3600 - 3600) 3600 60 60 59)
              [((3599 : Int), (1 : Nat)), (3599, 0)] = 0 then 0
         else round2
           ((List.countP (fun e => bucketHit (3600 - 3600) 3600 60 60 59 e && (e.2 != 0))
               [((3599 : Int), (1 : Nat)), (3599, 0)] : ℚ)
             / (List.countP (bucketHit (3600 - 3600) 3600 60 60 59)
                 [((3599 : Int), (1 : Nat)), (3599, 0)] : ℚ) * 100)) :=
  ⟨by decide,
   (claim6_downtime_buckets 3600 [((3599 : Int), (1 : Nat)), (3599, 0)]).2.2.2 59 (by decide)⟩

end AutoDeploy
